import Mathlib

/-!
Verification development for the JusWay documents API (Express.js, multi-tenant
DOCX generation service).  The definitions below are a shallow embedding of the
relevant source functions:

* `src/services/DocumentGenerator.js` — `processData`, `formatCPF`, `formatCNPJ`,
  `formatDate`, `formatDateTime`, `dateToExtensive` (JS values are modelled by
  `JSVal`, JS objects by insertion-ordered association lists, exceptions by
  `Except`);
* `src/middleware/security.js` — `isolateTenantPaths`, `sanitizeData` (with an
  explicit heap so that the aliasing of the shallow copy is visible),
  `encryptDocument` / `decryptDocument` (the AES-256-GCM primitive of Node's
  `crypto` is an external library and is taken as a parameter satisfying its
  documented AEAD contract);
* `src/r2-storage.js` — the object-store key layout `saveTemplate`/`getTemplate`;
* `src/server.js` — the `authenticate` middleware (JWT branch and API-key
  fallback, with the inline fixed-window rate limiter), `isValidTemplateUrl`,
  and the template-fetch part of the `GET /api/templates/:templateId/variables`
  and `POST /api/documents/generate` handlers.

Theorems named `C1_…` to `C10_…` settle the frozen claims.
-/

namespace JusWay

/-! ## JavaScript model helpers -/

/-- A JavaScript runtime value.  `ref` is a reference into an explicit heap of
objects; it is used where aliasing matters (`sanitizeData`). -/
inductive JSVal where
  | str (s : String)
  | num (n : Int)
  | bool (b : Bool)
  | null
  | undef
  | arr (items : List JSVal)
  | obj (fields : List (String × JSVal))
  | ref (cell : Nat)

/-- A JavaScript object as an insertion-ordered association list. -/
abbrev Obj := List (String × JSVal)

/-- JavaScript truthiness: `''`, `0`, `null`, `undefined` and `false` are falsy,
objects and arrays are always truthy. -/
def jsTruthy : JSVal → Bool
  | .str s => !(s == "")
  | .num n => !(n == 0)
  | .bool b => b
  | .null => false
  | .undef => false
  | .arr _ => true
  | .obj _ => true
  | .ref _ => true

/-- Property read `o[k]`: the first field named `k`. -/
def lookupObj (o : Obj) (k : String) : Option JSVal :=
  (o.find? (fun p => p.1 == k)).map (·.2)

/-- Property write `o[k] = v`: update the first field named `k` in place, or
append a new field (JS insertion order). -/
def setKey : Obj → String → JSVal → Obj
  | [], k, v => [(k, v)]
  | (k', v') :: rest, k, v =>
    if k' = k then (k', v) :: rest else (k', v') :: setKey rest k v

/-- `pat.isPrefixOf`-based substring scan over a character list. -/
def listHasSub (pat : List Char) : List Char → Bool
  | [] => pat.isEmpty
  | c :: rest => pat.isPrefixOf (c :: rest) || listHasSub pat rest

/-- JavaScript `s.includes(pat)`. -/
def jsIncludes (s pat : String) : Bool := listHasSub pat.data s.data

/-- JavaScript `s.startsWith(pat)`. -/
def jsStartsWith (s pat : String) : Bool := pat.data.isPrefixOf s.data

/-! ## src/services/DocumentGenerator.js -/

/-- What JS `Date` accessors return: `getDate()`, `getMonth()` (0-based),
`getFullYear()`, `getHours()`, `getMinutes()`. -/
structure JsDate where
  day : Nat
  month0 : Nat
  year : Nat
  hour : Nat
  minute : Nat
deriving DecidableEq

/-- `String(x).padStart(2, '0')` for the two-digit fields. -/
def pad2 (n : Nat) : String := if n < 10 then "0" ++ toString n else toString n

/-- The month names of `dateToExtensive`. -/
def monthNames : List String :=
  ["janeiro", "fevereiro", "março", "abril", "maio", "junho",
   "julho", "agosto", "setembro", "outubro", "novembro", "dezembro"]

/-- `formatDate`: `DD/MM/YYYY`. -/
def formatDate (d : JsDate) : String :=
  pad2 d.day ++ "/" ++ pad2 (d.month0 + 1) ++ "/" ++ toString d.year

/-- `formatDateTime`: `DD/MM/YYYY às HH:MM`. -/
def formatDateTime (d : JsDate) : String :=
  formatDate d ++ " às " ++ pad2 d.hour ++ ":" ++ pad2 d.minute

/-- `dateToExtensive`: day + full month name + year (out-of-range months render
as JS `undefined` would in a template string). -/
def dateToExtensive (d : JsDate) : String :=
  toString d.day ++ " de " ++ (monthNames.getD d.month0 "undefined") ++ " de " ++ toString d.year

/-- The failure a JS method call on a value lacking that method raises. -/
inductive JsErr where
  | typeError
deriving DecidableEq

/-- `cpf.replace(/\D/g, '')`: strip every non-digit character. -/
def stripNonDigits (s : String) : String := ⟨s.data.filter Char.isDigit⟩

/-- `clean.replace(/(\d{3})(\d{3})(\d{3})(\d{2})/, '$1.$2.$3-$4')` applied to an
all-digit string: the first 11 digits are grouped, anything beyond them is kept,
and a string with fewer than 11 digits has no match and is returned unchanged. -/
def cpfMask (clean : String) : String :=
  if 11 ≤ clean.data.length then
    let d := clean.data
    ⟨d.take 3⟩ ++ "." ++ ⟨(d.drop 3).take 3⟩ ++ "." ++ ⟨(d.drop 6).take 3⟩ ++ "-"
      ++ ⟨(d.drop 9).take 2⟩ ++ ⟨d.drop 11⟩
  else clean

/-- `clean.replace(/(\d{2})(\d{3})(\d{3})(\d{4})(\d{2})/, '$1.$2.$3/$4-$5')`,
same convention with 14 digits. -/
def cnpjMask (clean : String) : String :=
  if 14 ≤ clean.data.length then
    let d := clean.data
    ⟨d.take 2⟩ ++ "." ++ ⟨(d.drop 2).take 3⟩ ++ "." ++ ⟨(d.drop 5).take 3⟩ ++ "/"
      ++ ⟨(d.drop 8).take 4⟩ ++ "-" ++ ⟨(d.drop 12).take 2⟩ ++ ⟨d.drop 14⟩
  else clean

/-- `formatCPF(cpf)`: falsy input returns `''`; a string is stripped and masked;
calling `.replace` on any other truthy value raises a `TypeError`. -/
def formatCPF (cpf : JSVal) : Except JsErr String :=
  if jsTruthy cpf = false then .ok ""
  else match cpf with
    | .str s => .ok (cpfMask (stripNonDigits s))
    | _ => .error .typeError

/-- `formatCNPJ(cnpj)`, same shape as `formatCPF`. -/
def formatCNPJ (cnpj : JSVal) : Except JsErr String :=
  if jsTruthy cnpj = false then .ok ""
  else match cnpj with
    | .str s => .ok (cnpjMask (stripNonDigits s))
    | _ => .error .typeError

/-- The external capabilities `processData` consumes: the JS engine's date
parser (`new Date(string)` plus the `isNaN` validity check) and
`Intl.NumberFormat('pt-BR').format`. -/
structure JsEnv where
  parseDate : String → Option JsDate
  formatBRL : Int → String

/-- `formatCurrency(value)`: delegates to `Intl.NumberFormat` (external). -/
def formatCurrency (env : JsEnv) (v : Int) : String := env.formatBRL v

/-- Array normalization of `processData` step 2: plain strings become
`{value: s}`, other elements pass through. -/
def normalizeItem : JSVal → JSVal
  | .str s => .obj [("value", .str s)]
  | v => v

/-- Step 1 of the per-key loop: `if (Array.isArray(processed[key]))` replace
the array in place with its normalized elements. -/
def arrNormStep (ctx : Obj) (key : String) : Obj :=
  match (lookupObj ctx key).getD .undef with
  | .arr items => setKey ctx key (.arr (items.map normalizeItem))
  | _ => ctx

/-- Step 2: keys containing `valor`/`preco` with a numeric value get a
`_formatado` sibling with the currency rendering. -/
def currencyStep (env : JsEnv) (ctx : Obj) (key : String) (v : JSVal) : Obj :=
  if jsIncludes key "valor" || jsIncludes key "preco" then
    match v with
    | .num n => setKey ctx (key ++ "_formatado") (.str (formatCurrency env n))
    | _ => ctx
  else ctx

/-- Step 3: keys containing `cpf` get a `_formatado` sibling from `formatCPF`
(which can throw). -/
def cpfStep (ctx : Obj) (key : String) (v : JSVal) : Except JsErr Obj :=
  if jsIncludes key "cpf" then
    match formatCPF v with
    | .ok f => .ok (setKey ctx (key ++ "_formatado") (.str f))
    | .error e => .error e
  else .ok ctx

/-- Step 4: keys containing `cnpj`, via `formatCNPJ`. -/
def cnpjStep (ctx : Obj) (key : String) (v : JSVal) : Except JsErr Obj :=
  if jsIncludes key "cnpj" then
    match formatCNPJ v with
    | .ok f => .ok (setKey ctx (key ++ "_formatado") (.str f))
    | .error e => .error e
  else .ok ctx

/-- Step 5: keys containing `data` with a truthy string value parseable as a
date get `_formatada` and `_extenso` siblings; unparseable dates add nothing. -/
def dateStep (env : JsEnv) (ctx : Obj) (key : String) (v : JSVal) : Obj :=
  if jsIncludes key "data" && jsTruthy v then
    match v with
    | .str s =>
      match env.parseDate s with
      | some d =>
        setKey (setKey ctx (key ++ "_formatada") (.str (formatDate d)))
          (key ++ "_extenso") (.str (dateToExtensive d))
      | none => ctx
    | _ => ctx
  else ctx

/-- The body of `processData`'s `for (const key in processed)` loop for one key,
in source order: array normalization, currency, CPF, CNPJ, date.  `v` is the
value after the in-place array normalization (later steps only add `_formatado`
/`_formatada`/`_extenso` siblings, never touch `key` itself, so re-reading
`processed[key]` at each step yields the same value). -/
def processKey (env : JsEnv) (ctx : Obj) (key : String) : Except JsErr Obj :=
  let ctx1 := arrNormStep ctx key
  let v := (lookupObj ctx1 key).getD .undef
  let ctx2 := currencyStep env ctx1 key v
  match cpfStep ctx2 key v with
  | .error e => .error e
  | .ok ctx3 =>
    match cnpjStep ctx3 key v with
    | .error e => .error e
    | .ok ctx4 => .ok (dateStep env ctx4 key v)

/-- `processData(data)`: shallow copy, inject `hoje`/`agora`, run the per-key
loop over the keys present at loop entry, then add the `tem` presence map built
from the original input. -/
def processData (env : JsEnv) (now : JsDate) (data : Obj) : Except JsErr Obj :=
  let processed :=
    setKey (setKey data "hoje" (.str (formatDate now))) "agora" (.str (formatDateTime now))
  let keys := processed.map (·.1)
  match keys.foldlM (processKey env) processed with
  | .error e => .error e
  | .ok ctx =>
    .ok (setKey ctx "tem" (.obj (data.map (fun p => (p.1, .bool (jsTruthy p.2))))))

/-! ## src/middleware/security.js -/

/-- The namespace handles `SecurityMiddleware.isolateTenantPaths` puts on the
request. -/
structure TenantPaths where
  templates : String
  documents : String
  temp : String
  logs : String
deriving DecidableEq

/-- `isolateTenantPaths`: four namespace paths built by template-string
interpolation of the tenant id, with no validation of the id. -/
def isolateTenantPaths (tenantId : String) : TenantPaths :=
  { templates := "tenants/" ++ tenantId ++ "/templates"
    documents := "tenants/" ++ tenantId ++ "/documents"
    temp := "tenants/" ++ tenantId ++ "/temp"
    logs := "tenants/" ++ tenantId ++ "/logs" }

/-- Whether path `p` lies inside namespace `ns` (is `ns` itself or a proper
path beneath it). -/
def withinNamespace (p ns : String) : Bool := (p == ns) || jsStartsWith p (ns ++ "/")

/-- A heap of JS objects; `JSVal.ref i` points at cell `i`.  Needed because
`sanitizeData` takes a shallow copy: the nested `data` object is shared between
the original body and the copy. -/
abbrev Heap := List Obj

/-- The redaction placeholder `'***REDACTED***'`. -/
def REDACTED : JSVal := .str "***REDACTED***"

/-- The denylist of `sanitizeData`. -/
def sensitiveFields : List String := ["cpf", "cnpj", "rg", "senha", "password", "token"]

/-- Truthiness of a property read (`undefined` when absent). -/
def jsTruthyOpt (v : Option JSVal) : Bool := jsTruthy (v.getD .undef)

/-- The nested half of one `sanitizeData` loop iteration:
`if (sanitized.data && sanitized.data[field]) sanitized.data[field] = RED` —
`sanitized.data` is a shared reference into the heap, so the write lands in the
heap cell the original body's `data` also points at. -/
def redactNested (h : Heap) (s1 : Obj) (field : String) : Heap × Obj :=
  match lookupObj s1 "data" with
  | some (.ref d) =>
    match h[d]? with
    | some dobj =>
      if jsTruthyOpt (lookupObj dobj field) then (h.set d (setKey dobj field REDACTED), s1)
      else (h, s1)
    | none => (h, s1)
  | _ => (h, s1)

/-- One iteration of `sanitizeData`'s `for (const field of sensitiveFields)`
loop: redact the top-level field on the copy, then the nested `data` field
through the shared reference. -/
def sanitizeStep : (Heap × Obj) → String → (Heap × Obj) := fun hs field =>
  redactNested hs.1
    (if jsTruthyOpt (lookupObj hs.2 field) then setKey hs.2 field REDACTED else hs.2) field

/-- `sanitizeData`: when a body is present, spread it into a shallow copy
(`{...req.body}` — the same field values, so the nested `data` reference is
shared), loop over the denylist, and return the copy as `req.sanitizedBody`
together with the possibly mutated heap. -/
def sanitizeData (heap : Heap) (bodyIdx : Nat) : Heap × Option Obj :=
  match heap[bodyIdx]? with
  | none => (heap, none)
  | some body =>
    let r := sensitiveFields.foldl sanitizeStep (heap, body)
    (r.1, some r.2)

/-- The AES-256-GCM primitive of Node's `crypto` module (external library),
split into its CTR-mode stream cipher and its GHASH-based authentication tag:
`createCipheriv` produces `enc` and `tagOf`, `createDecipheriv` with
`setAuthTag` recomputes the tag over the ciphertext and fails on mismatch. -/
structure AEAD where
  enc : List Nat → List Nat → List Nat → List Nat
  rawDec : List Nat → List Nat → List Nat → List Nat
  tagOf : List Nat → List Nat → List Nat → List Nat

/-- GCM decryption: recompute the tag over (key, iv, ciphertext); only a
matching tag releases the decrypted bytes, otherwise the call throws and no
partial plaintext is returned. -/
def aeadOpen (A : AEAD) (key iv ct tag : List Nat) : Option (List Nat) :=
  if tag = A.tagOf key iv ct then some (A.rawDec key iv ct) else none

/-- The encrypted envelope `encryptDocument` returns (`iv` and `authTag` are
hex strings in the source; the bytes they encode are kept). -/
structure EncDoc where
  encrypted : List Nat
  iv : List Nat
  authTag : List Nat
deriving DecidableEq

/-- `encryptDocument(tenantId, buffer)`: derive the per-tenant key with
`scryptSync(masterKey, tenantId, 32)` (scrypt is external, a parameter here),
draw a fresh iv (`randomBytes(16)`, made an explicit argument), encrypt and
store the authentication tag alongside. -/
def encryptDocument (A : AEAD) (scrypt : String → String → List Nat)
    (masterKey tenantId : String) (ivRand : List Nat) (buffer : List Nat) : EncDoc :=
  let key := scrypt masterKey tenantId
  let ct := A.enc key ivRand buffer
  { encrypted := ct, iv := ivRand, authTag := A.tagOf key ivRand ct }

/-- `decryptDocument(tenantId, encryptedData, iv, authTag)`: derive the same
per-tenant key and open the envelope; `none` models the thrown error. -/
def decryptDocument (A : AEAD) (scrypt : String → String → List Nat)
    (masterKey tenantId : String) (encryptedData iv authTag : List Nat) : Option (List Nat) :=
  aeadOpen A (scrypt masterKey tenantId) iv encryptedData authTag

/-! ## src/r2-storage.js -/

/-- A stored template: what the handlers return to the caller. -/
structure StoredTemplate where
  name : String
  buffer : List Nat
deriving DecidableEq

/-- The object key `saveTemplate`/`getTemplate` build:
``tenants/${tenantId}/templates/${templateId}.docx``. -/
def r2Key (tenantId templateId : String) : String :=
  "tenants/" ++ tenantId ++ "/templates/" ++ templateId ++ ".docx"

/-- The R2 bucket contents as the entries written by `saveTemplate tenant
templateId buffer`: lookup is by the literal object key (S3 keys are flat
strings). -/
def r2Get (entries : List (String × String × StoredTemplate)) (key : String) :
    Option StoredTemplate :=
  (entries.find? (fun e => r2Key e.1 e.2.1 == key)).map (·.2.2)

/-- `getTemplate(tenantId, templateId)`. -/
def getTemplateR2 (entries : List (String × String × StoredTemplate))
    (tenantId templateId : String) : Option StoredTemplate :=
  r2Get entries (r2Key tenantId templateId)

/-! ## src/server.js -/

/-- `templateStore[tenantId]?.[templateId]`: the in-memory store, a nested
dictionary keyed by the authenticated tenant id, then the template id. -/
def memGet (mem : List (String × String × StoredTemplate)) (tenantId templateId : String) :
    Option StoredTemplate :=
  (mem.find? (fun e => e.1 == tenantId && e.2.1 == templateId)).map (·.2.2)

/-- The template lookup both handlers share: memory first, then (when R2 is
configured) the bucket under the authenticated tenant's key. -/
def fetchTemplate (mem entries : List (String × String × StoredTemplate)) (r2conf : Bool)
    (tenantId templateId : String) : Option StoredTemplate :=
  match memGet mem tenantId templateId with
  | some t => some t
  | none => if r2conf then getTemplateR2 entries tenantId templateId else none

/-- Response of `GET /api/templates/:templateId/variables` as far as template
resolution is concerned: 404 or a 200 carrying data derived from the stored
template. -/
inductive VarsResponse where
  | notFound
  | ok (templateId : String) (t : StoredTemplate)
deriving DecidableEq

/-- The template-resolution part of the variables handler. -/
def variablesHandler (mem entries : List (String × String × StoredTemplate)) (r2conf : Bool)
    (tenantId templateId : String) : VarsResponse :=
  match fetchTemplate mem entries r2conf tenantId templateId with
  | none => .notFound
  | some t => .ok templateId t

/-- Response of the `templateId` branch of `POST /api/documents/generate`:
404 or the document rendered from the fetched template. -/
inductive GenResponse where
  | notFound
  | document (bytes : List Nat)
deriving DecidableEq

/-- The template-resolution part of the generate handler; `render` is the
external docxtemplater merge. -/
def generateHandler (mem entries : List (String × String × StoredTemplate)) (r2conf : Bool)
    (render : StoredTemplate → Obj → List Nat) (tenantId templateId : String) (data : Obj) :
    GenResponse :=
  match fetchTemplate mem entries r2conf tenantId templateId with
  | none => .notFound
  | some t => .document (render t data)

/-- A decoded JWT as `jwt.verify` sees it: whether the signature checks out
against the process-wide secret, whether `exp` is past, and the claim fields. -/
structure SignedToken where
  sigValid : Bool
  expired : Bool
  tenantId : Option String
  tenantName : Option String
  permissions : Option (List String)
deriving DecidableEq

/-- The credential material on a request: a `Bearer`-shaped Authorization
header, `x-api-key` and `x-tenant-id`. -/
structure AuthRequest where
  bearer : Option SignedToken
  apiKey : Option String
  tenantHdr : Option String

/-- What `authenticate` does to the request: pass it on with the tenant
identity set (HTTP continues, status 200 here), or terminate with an error
status.  The API-key branch never sets `req.permissions`, hence the `Option`. -/
inductive AuthOutcome where
  | ok (tenantId tenantName : String) (permissions : Option (List String))
  | err (status : Nat) (msg : String)
deriving DecidableEq

/-- JS falsiness of an optional string header or claim (`undefined` or `''`). -/
def jsStrFalsy : Option String → Bool
  | none => true
  | some s => s == ""

/-- The rate-limit key ```${tenantId}-${minute}``` with
`minute = Math.floor(Date.now() / 60000)`. -/
def rlKey (tenantId : String) (now : Nat) : String :=
  tenantId ++ "-" ++ toString (now / 60000)

/-- `requestCounts[key] = (requestCounts[key] || 0) + 1`. -/
def bump (counts : String → Nat) (k : String) : String → Nat :=
  fun s => if s = k then counts k + 1 else counts s

/-- The hard-coded master key of the API-key compatibility path. -/
def MASTER_API_KEY : String := "YmFzZTQ0OnNlbmhhMTIzOjE3NTgzMDk2Mjc5MDk="

/-- The empty `requestCounts` object. -/
def zeroCounts : String → Nat := fun _ => 0

/-- The `authenticate` middleware.  With a `Bearer` header: verify the JWT
(signature first, then expiry, as `jsonwebtoken` does), require a truthy
`tenantId` claim, bump the fixed-window counter and reject past 30.  Without
one: fall back to `x-api-key` + `x-tenant-id` against the master key, with the
same rate limiting.  Returns the outcome and the updated counters. -/
def authenticate (counts : String → Nat) (now : Nat) (req : AuthRequest) :
    AuthOutcome × (String → Nat) :=
  match req.bearer with
  | some tok =>
    if tok.sigValid = false then (.err 401 "Invalid token", counts)
    else if tok.expired then (.err 401 "Token expired", counts)
    else if jsStrFalsy tok.tenantId then (.err 401 "Invalid token: missing tenantId", counts)
    else
      let tid := tok.tenantId.getD ""
      let k := rlKey tid now
      let counts' := bump counts k
      if counts' k > 30 then (.err 429 "Rate limit exceeded", counts')
      else
        (.ok tid (if jsStrFalsy tok.tenantName then tid else tok.tenantName.getD "")
          (some (tok.permissions.getD [])), counts')
  | none =>
    if jsStrFalsy req.apiKey then
      (.err 401 "Authentication required (Bearer token or API key)", counts)
    else if jsStrFalsy req.tenantHdr then
      (.err 401 "Tenant ID required when using API key", counts)
    else if req.apiKey.getD "" ≠ MASTER_API_KEY then
      (.err 401 "Invalid API key", counts)
    else
      let tid := req.tenantHdr.getD ""
      let k := rlKey tid now
      let counts' := bump counts k
      if counts' k > 30 then (.err 429 "Rate limit exceeded", counts')
      else (.ok tid tid none, counts')

/-- `n` requests through `authenticate`, same credentials and clock: the final
counters and the outcomes in order. -/
def runAuth (counts : String → Nat) (now : Nat) (req : AuthRequest) :
    Nat → ((String → Nat) × List AuthOutcome)
  | 0 => (counts, [])
  | n + 1 =>
    let r := runAuth counts now req n
    let a := authenticate r.1 now req
    (a.2, r.2 ++ [a.1])

/-- The HTTP status an outcome answers with (`res.json` defaults to 200). -/
def outcomeStatus : AuthOutcome → Nat
  | .ok _ _ _ => 200
  | .err s _ => s

/-- The tenant identity an outcome carries. -/
def outcomeTid : AuthOutcome → Option String
  | .ok t _ _ => some t
  | .err _ _ => none

/-- Whether the request was passed on. -/
def outcomeOk : AuthOutcome → Bool
  | .ok _ _ _ => true
  | .err _ _ => false

/-- The `tenantId` claim as the truthiness check reads it. -/
def jsTenant (tok : SignedToken) : Option String :=
  if jsStrFalsy tok.tenantId then none else tok.tenantId

/-- A token the JWT branch accepts: valid signature, not expired, truthy
tenant claim. -/
def tokGood (tok : SignedToken) : Bool :=
  tok.sigValid && !tok.expired && (jsTenant tok).isSome

/-- The API-key fallback's checks short of rate limiting. -/
def apiGood (ak th : Option String) : Bool :=
  !jsStrFalsy ak && !jsStrFalsy th && (ak.getD "" == MASTER_API_KEY)

/-- The components `new URL(url)` exposes to `isValidTemplateUrl`. -/
structure URLParts where
  protocol : String
  hostname : String
deriving DecidableEq

/-- `isValidTemplateUrl`: `none` models the `URL` constructor throwing; only
`https:` passes; `localhost`, `127.0.0.1` and hostnames starting with
`192.168.` or `10.` are blocked. -/
def isValidTemplateUrl (parsedUrl : Option URLParts) : Bool :=
  match parsedUrl with
  | none => false
  | some u =>
    if (u.protocol == "https:") = false then false
    else if u.hostname == "localhost" || u.hostname == "127.0.0.1"
        || jsStartsWith u.hostname "192.168." || jsStartsWith u.hostname "10." then false
    else true

/-- Split a character list at every `'.'`. -/
def splitOnDot : List Char → List (List Char)
  | [] => [[]]
  | c :: rest =>
    if c = '.' then [] :: splitOnDot rest
    else match splitOnDot rest with
      | g :: gs => (c :: g) :: gs
      | [] => [[c]]

/-- Dotted-quad parse of a hostname, for stating which IPv4 ranges the claim
demands be blocked. -/
def ipv4Octets (s : String) : Option (List Nat) :=
  let parts := splitOnDot s.data
  if parts.length = 4 && parts.all (fun p => !p.isEmpty && p.all Char.isDigit) then
    some (parts.map (fun p => p.foldl (fun n c => n * 10 + (c.toNat - 48)) 0))
  else none

/-- Membership of a dotted-quad hostname in 172.16.0.0/12. -/
def in172_16_12 (s : String) : Bool :=
  match ipv4Octets s with
  | some (a :: b :: _) => a == 172 && (decide (16 ≤ b) && decide (b ≤ 31))
  | _ => false

/-! ## Generic lemmas -/

theorem lookupObj_setKey (o : Obj) (k q : String) (v : JSVal) :
    lookupObj (setKey o k v) q = if q = k then some v else lookupObj o q := by
  induction o with
  | nil =>
    by_cases h : q = k
    · subst h; simp [setKey, lookupObj]
    · have hb : (k == q) = false := by
        simp only [beq_eq_false_iff_ne]; exact fun hh => h hh.symm
      simp [setKey, lookupObj, List.find?, hb, h]
  | cons p rest ih =>
    obtain ⟨k', v'⟩ := p
    by_cases hk : k' = k
    · subst hk
      by_cases h : q = k'
      · subst h
        simp [setKey, lookupObj, List.find?]
      · have hb : (k' == q) = false := by
          simp only [beq_eq_false_iff_ne]; exact fun hh => h hh.symm
        simp [setKey, lookupObj, List.find?, hb, h]
    · rw [show setKey ((k', v') :: rest) k v = (k', v') :: setKey rest k v by
        simp [setKey, hk]]
      by_cases h : q = k'
      · subst h
        have hknq : ¬ q = k := fun hh => hk (hh ▸ rfl)
        simp [lookupObj, List.find?, hknq]
      · have hb : (k' == q) = false := by
          simp only [beq_eq_false_iff_ne]; exact fun hh => h hh.symm
        simp only [lookupObj, List.find?, hb] at ih ⊢
        exact ih

/-- Decimal digits of a natural number, most significant first. -/
def natChars (n : Nat) : List Char :=
  if _h : n < 10 then [Nat.digitChar n]
  else natChars (n / 10) ++ [Nat.digitChar (n % 10)]
termination_by n
decreasing_by exact Nat.div_lt_self (by omega) (by omega)

theorem natChars_ne_nil (n : Nat) : natChars n ≠ [] := by
  rw [natChars]; split <;> simp

theorem toDigitsCore_eq : ∀ (f n : Nat) (ds : List Char), n < f →
    Nat.toDigitsCore 10 f n ds = natChars n ++ ds := by
  intro f
  induction f with
  | zero => intro n ds h; omega
  | succ f ih =>
    intro n ds h
    by_cases h10 : n / 10 = 0
    · have hn : n < 10 := by
        by_contra hc
        have : 1 ≤ n / 10 := Nat.one_le_div_iff (by omega) |>.mpr (by omega)
        omega
      simp only [Nat.toDigitsCore, h10, if_pos]
      rw [natChars]
      simp [hn, Nat.mod_eq_of_lt hn]
    · have hn : ¬ n < 10 := by
        intro hlt
        exact h10 (Nat.div_eq_of_lt hlt)
      have hdiv : n / 10 < f := by
        have := Nat.div_lt_self (show 0 < n by omega) (show 1 < 10 by omega)
        omega
      simp only [Nat.toDigitsCore, h10, if_neg]
      rw [ih (n / 10) _ hdiv]
      conv_rhs => rw [natChars]
      simp [hn, List.append_assoc]

theorem natRepr_eq (n : Nat) : Nat.repr n = ⟨natChars n⟩ := by
  show (Nat.toDigits 10 n).asString = _
  unfold Nat.toDigits
  rw [toDigitsCore_eq (n + 1) n [] (Nat.lt_succ_self n)]
  simp [List.asString]

theorem digitChar_inj_lt (a b : Nat) (ha : a < 10) (hb : b < 10)
    (h : Nat.digitChar a = Nat.digitChar b) : a = b := by
  interval_cases a <;> interval_cases b <;> revert h <;> decide

theorem natChars_lt10 (n : Nat) (h : n < 10) : natChars n = [Nat.digitChar n] := by
  rw [natChars]; simp [h]

theorem natChars_ge10 (n : Nat) (h : ¬ n < 10) :
    natChars n = natChars (n / 10) ++ [Nat.digitChar (n % 10)] := by
  conv_lhs => rw [natChars]
  simp [h]

theorem natChars_inj (m : Nat) : ∀ n, natChars m = natChars n → m = n := by
  induction m using Nat.strong_induction_on with
  | _ m ih =>
    intro n h
    by_cases hm : m < 10 <;> by_cases hn : n < 10
    · rw [natChars_lt10 _ hm, natChars_lt10 _ hn] at h
      exact digitChar_inj_lt _ _ hm hn (by simpa using h)
    · rw [natChars_lt10 _ hm, natChars_ge10 _ hn] at h
      rcases hc : natChars (n / 10) with _ | ⟨a, t⟩
      · exact absurd hc (natChars_ne_nil (n / 10))
      · rw [hc] at h
        have := congrArg List.tail h
        simp at this
    · rw [natChars_ge10 _ hm, natChars_lt10 _ hn] at h
      rcases hc : natChars (m / 10) with _ | ⟨a, t⟩
      · exact absurd hc (natChars_ne_nil (m / 10))
      · rw [hc] at h
        have := congrArg List.tail h
        simp at this
    · rw [natChars_ge10 _ hm, natChars_ge10 _ hn] at h
      have hp := List.append_inj' h (by simp)
      obtain ⟨h1, h2⟩ := hp
      have hdiv : m / 10 = n / 10 :=
        ih (m / 10) (Nat.div_lt_self (by omega) (by omega)) (n / 10) h1
      have h2' : Nat.digitChar (m % 10) = Nat.digitChar (n % 10) := by
        simpa using h2
      have hmod : m % 10 = n % 10 :=
        digitChar_inj_lt _ _ (Nat.mod_lt _ (by omega)) (Nat.mod_lt _ (by omega)) h2'
      have hm10 := Nat.div_add_mod m 10
      have hn10 := Nat.div_add_mod n 10
      omega

theorem toString_nat_inj (m n : Nat) (h : toString m = toString n) : m = n := by
  have hm : Nat.repr m = Nat.repr n := h
  rw [natRepr_eq, natRepr_eq] at hm
  have : natChars m = natChars n := by injection hm
  exact natChars_inj m n this

theorem rlKey_ne_of_minute_ne (tid : String) (now now' : Nat)
    (h : now / 60000 ≠ now' / 60000) : rlKey tid now ≠ rlKey tid now' := by
  intro he
  apply h
  have hd := congrArg String.data he
  simp only [rlKey, String.data_append, List.append_assoc] at hd
  have hd2 := (List.append_right_inj tid.data).mp hd
  have hd3 := (List.append_right_inj "-".data).mp hd2
  have hts : toString (now / 60000) = toString (now' / 60000) := by
    have h1 : toString (now / 60000) = (⟨(toString (now / 60000)).data⟩ : String) := rfl
    rw [h1, hd3]
  exact toString_nat_inj _ _ hts



theorem strData_inj (a b : String) (h : a.data = b.data) : a = b := by
  cases a; cases b; exact congrArg String.mk h

/-- Tenant identifiers free of the path separator. -/
def NoSlash (s : String) : Prop := '/' ∉ s.data

instance (s : String) : Decidable (NoSlash s) := by
  unfold NoSlash; infer_instance

theorem slashSplit : ∀ (u₁ u₂ v₁ v₂ : List Char), '/' ∉ u₁ → '/' ∉ u₂ →
    u₁ ++ '/' :: v₁ = u₂ ++ '/' :: v₂ → u₁ = u₂ ∧ v₁ = v₂ := by
  intro u₁
  induction u₁ with
  | nil =>
    intro u₂ v₁ v₂ h1 h2 h
    cases u₂ with
    | nil => simpa using h
    | cons c t =>
      simp at h
      obtain ⟨hc, -⟩ := h
      exact absurd (hc ▸ List.mem_cons_self c t) h2
  | cons c t ih =>
    intro u₂ v₁ v₂ h1 h2 h
    cases u₂ with
    | nil =>
      simp at h
      obtain ⟨hc, -⟩ := h
      exact absurd (hc ▸ List.mem_cons_self c t) h1
    | cons c' t' =>
      simp at h
      obtain ⟨hc, hrest⟩ := h
      have h1' : '/' ∉ t := fun hm => h1 (List.mem_cons_of_mem _ hm)
      have h2' : '/' ∉ t' := fun hm => h2 (List.mem_cons_of_mem _ hm)
      obtain ⟨he, hv⟩ := ih t' v₁ v₂ h1' h2' hrest
      exact ⟨by rw [hc, he], hv⟩

theorem r2Key_inj (t₁ i₁ t₂ i₂ : String) (h1 : NoSlash t₁) (h2 : NoSlash t₂)
    (h : r2Key t₁ i₁ = r2Key t₂ i₂) : t₁ = t₂ ∧ i₁ = i₂ := by
  have hd := congrArg String.data h
  simp only [r2Key, String.data_append, List.append_assoc] at hd
  have hd1 := (List.append_right_inj "tenants/".data).mp hd
  have hd2 := slashSplit t₁.data t₂.data
    ("templates/".data ++ (i₁.data ++ ".docx".data))
    ("templates/".data ++ (i₂.data ++ ".docx".data)) h1 h2 hd1
  obtain ⟨ht, hi⟩ := hd2
  have hi1 := (List.append_right_inj "templates/".data).mp hi
  have hi2 := (List.append_left_inj ".docx".data).mp hi1
  exact ⟨strData_inj _ _ ht, strData_inj _ _ hi2⟩


theorem C1_cross_tenant_404 (mem entries : List (String × String × StoredTemplate))
    (r2conf : Bool) (render : StoredTemplate → Obj → List Nat)
    (A B tid : String) (T : StoredTemplate) (data : Obj)
    (hA : NoSlash A)
    (hentries : ∀ e ∈ entries, NoSlash e.1)
    (hAB : A ≠ B)
    (hmem : memGet mem A tid = none)
    (hAown : ∀ e ∈ entries, e.1 = A → e.2.1 ≠ tid)
    (hB : memGet mem B tid = some T ∨ (B, (tid, T)) ∈ entries) :
    variablesHandler mem entries r2conf A tid = .notFound ∧
    generateHandler mem entries r2conf render A tid data = .notFound := by
  have hfetch : fetchTemplate mem entries r2conf A tid = none := by
    unfold fetchTemplate
    rw [hmem]
    cases r2conf
    · simp
    · simp only [if_pos]
      unfold getTemplateR2 r2Get
      have hfind : entries.find? (fun e => r2Key e.1 e.2.1 == r2Key A tid) = none := by
        rw [List.find?_eq_none]
        intro e he
        simp only [beq_iff_eq]
        intro hkey
        obtain ⟨ht, hi⟩ := r2Key_inj _ _ _ _ (hentries e he) hA hkey
        exact hAown e he ht hi
      rw [hfind]; rfl
  constructor
  · unfold variablesHandler; rw [hfetch]
  · unfold generateHandler; rw [hfetch]

theorem C1_witness :
    variablesHandler [] [("b", ("t1", (⟨"doc", [0]⟩ : StoredTemplate)))] true "a" "t1" = .notFound ∧
    generateHandler [] [("b", ("t1", ⟨"doc", [0]⟩))] true (fun _ _ => []) "a" "t1" [] = .notFound :=
  C1_cross_tenant_404 [] [("b", ("t1", ⟨"doc", [0]⟩))] true (fun _ _ => []) "a" "b" "t1"
    ⟨"doc", [0]⟩ [] (by decide) (by decide) (by decide) (by decide) (by decide)
    (Or.inr (by decide))

def c1Secret : StoredTemplate := ⟨"secret", [1]⟩

def c1Other : StoredTemplate := ⟨"z", [2]⟩

def c1Entries : List (String × String × StoredTemplate) :=
  [("x", ("y/templates/z", c1Secret)), ("x", ("z", c1Other))]

theorem C1_counterexample :
    ("x", ("z", c1Other)) ∈ c1Entries ∧
    ("x/templates/y" == "x") = false ∧
    memGet [] "x/templates/y" "z" = none ∧
    variablesHandler [] c1Entries true "x/templates/y" "z" = .ok "z" c1Secret ∧
    VarsResponse.ok "z" c1Secret ≠ VarsResponse.notFound := by decide

theorem C2_namespace_overlap_eval :
    ("acme/templates" == "acme") = false ∧
    withinNamespace (isolateTenantPaths "acme/templates").templates
      (isolateTenantPaths "acme").templates = true ∧
    withinNamespace (isolateTenantPaths "acme/templates").documents
      (isolateTenantPaths "acme").templates = true := by decide

theorem C4_signed_token_auth (counts : String → Nat) (now : Nat) (ak th : Option String)
    (tok : SignedToken)
    (hq : counts (rlKey ((jsTenant tok).getD "") now) < 30) :
    (outcomeStatus (authenticate counts now ⟨some tok, ak, th⟩).1 = 401 ↔ tokGood tok = false) ∧
    (outcomeTid (authenticate counts now ⟨some tok, ak, th⟩).1).isSome = tokGood tok ∧
    (outcomeTid (authenticate counts now ⟨some tok, ak, th⟩).1 = none ∨
     outcomeTid (authenticate counts now ⟨some tok, ak, th⟩).1 = jsTenant tok) := by
  unfold authenticate
  cases hs : tok.sigValid
  · simp [outcomeStatus, outcomeTid, tokGood, hs]
  · cases he : tok.expired
    · by_cases ht : jsStrFalsy tok.tenantId
      · simp [outcomeStatus, outcomeTid, tokGood, jsTenant, hs, he, ht]
      · have hq' : counts (rlKey (tok.tenantId.getD "") now) < 30 := by
          unfold jsTenant at hq
          rw [if_neg ht] at hq
          exact hq
        have hbump : bump counts (rlKey (tok.tenantId.getD "") now)
            (rlKey (tok.tenantId.getD "") now) = counts (rlKey (tok.tenantId.getD "") now) + 1 := by
          simp [bump]
        simp [hbump, outcomeStatus, outcomeTid, tokGood, jsTenant, hs, he, ht,
          show ¬ (counts (rlKey (tok.tenantId.getD "") now) + 1 > 30) by omega]
        cases htid : tok.tenantId with
        | none => rw [htid] at ht; simp [jsStrFalsy] at ht
        | some t => simp
    · simp [outcomeStatus, outcomeTid, tokGood, hs, he]


/-- The outcome the JWT branch produces for an accepted token. -/
def okJwtOutcome (tok : SignedToken) (tid : String) : AuthOutcome :=
  .ok tid (if jsStrFalsy tok.tenantName then tid else tok.tenantName.getD "")
    (some (tok.permissions.getD []))

theorem runAuth_state (tok : SignedToken) (tid : String) (now : Nat) (ak th : Option String)
    (hsig : tok.sigValid = true) (hexp : tok.expired = false)
    (htid : tok.tenantId = some tid) (hne : tid ≠ "") :
    ∀ n, runAuth zeroCounts now ⟨some tok, ak, th⟩ n =
      (fun k => if k = rlKey tid now then n else 0,
       (List.range n).map fun i =>
         if i < 30 then okJwtOutcome tok tid else .err 429 "Rate limit exceeded") := by
  intro n
  induction n with
  | zero =>
    simp only [runAuth, List.range_zero, List.map_nil]
    have hz : zeroCounts = (fun k => if k = rlKey tid now then 0 else 0) := by
      funext k; simp [zeroCounts]
    rw [← hz]
  | succ n ih =>
    simp only [runAuth, ih]
    have hfalsy : jsStrFalsy tok.tenantId = false := by
      rw [htid]; simp [jsStrFalsy, hne]
    have hT : tok.tenantId.getD "" = tid := by rw [htid]; rfl
    simp only [authenticate, hsig, hexp, hfalsy, hT, Bool.false_eq_true, if_false,
      Bool.true_eq_false]
    have hcount : bump (fun k => if k = rlKey tid now then n else 0) (rlKey tid now)
        = fun k => if k = rlKey tid now then n + 1 else 0 := by
      funext k
      by_cases hk : k = rlKey tid now <;> simp [bump, hk]
    by_cases hn : n < 30
    · have : ¬ (bump (fun k => if k = rlKey tid now then n else 0) (rlKey tid now)
          (rlKey tid now) > 30) := by
        rw [hcount]; simp; omega
      simp only [this, if_false]
      rw [List.range_succ]
      simp [hcount, hn, okJwtOutcome]
    · have : bump (fun k => if k = rlKey tid now then n else 0) (rlKey tid now)
          (rlKey tid now) > 30 := by
        rw [hcount]; simp; omega
      simp only [this, if_true]
      rw [List.range_succ]
      simp [hcount, hn]


theorem C5_rate_limit_window (tok : SignedToken) (tid : String) (now now' : Nat)
    (ak th : Option String)
    (hsig : tok.sigValid = true) (hexp : tok.expired = false)
    (htid : tok.tenantId = some tid) (hne : tid ≠ "")
    (hwin : now / 60000 ≠ now' / 60000) :
    ((runAuth zeroCounts now ⟨some tok, ak, th⟩ 31).2.map outcomeStatus
       = List.replicate 30 200 ++ [429]) ∧
    (runAuth zeroCounts now ⟨some tok, ak, th⟩ 31).1 (rlKey tid now') = 0 ∧
    outcomeStatus (authenticate (runAuth zeroCounts now ⟨some tok, ak, th⟩ 31).1 now'
        ⟨some tok, ak, th⟩).1 = 200 := by
  rw [runAuth_state tok tid now ak th hsig hexp htid hne 31]
  have hkey : rlKey tid now' ≠ rlKey tid now :=
    Ne.symm (rlKey_ne_of_minute_ne tid now now' hwin)
  refine ⟨?_, ?_, ?_⟩
  · rw [List.map_map]
    have hh : (outcomeStatus ∘ fun i =>
        if i < 30 then okJwtOutcome tok tid else AuthOutcome.err 429 "Rate limit exceeded")
        = fun i => if i < 30 then 200 else 429 := by
      funext i
      by_cases hi : i < 30 <;> simp [hi, okJwtOutcome, outcomeStatus]
    rw [hh]
    decide
  · simp [hkey]
  · have hfalsy : jsStrFalsy tok.tenantId = false := by
      rw [htid]; simp [jsStrFalsy, hne]
    have hT : tok.tenantId.getD "" = tid := by rw [htid]; rfl
    simp only [authenticate, hsig, hexp, hfalsy, hT, Bool.false_eq_true, if_false,
      Bool.true_eq_false]
    have hb : bump (fun k => if k = rlKey tid now then 31 else 0) (rlKey tid now')
        (rlKey tid now') = 1 := by
      simp [bump, hkey]
    simp [hb, outcomeStatus]

def c4Tok : SignedToken := ⟨true, false, some "t1", none, none⟩

theorem C5_witness :
    ((runAuth zeroCounts 0 ⟨some c4Tok, none, none⟩ 31).2.map outcomeStatus
       = List.replicate 30 200 ++ [429]) ∧
    (runAuth zeroCounts 0 ⟨some c4Tok, none, none⟩ 31).1 (rlKey "t1" 60000) = 0 ∧
    outcomeStatus (authenticate (runAuth zeroCounts 0 ⟨some c4Tok, none, none⟩ 31).1 60000
        ⟨some c4Tok, none, none⟩).1 = 200 :=
  C5_rate_limit_window c4Tok "t1" 0 60000 none none rfl rfl rfl (by decide) (by decide)


theorem C6_bearer_priority (counts : String → Nat) (now : Nat) (tok : SignedToken)
    (ak th ak' th' : Option String) :
    authenticate counts now ⟨some tok, ak, th⟩ = authenticate counts now ⟨some tok, ak', th'⟩ ∧
    outcomeOk (authenticate counts now ⟨none, ak, th⟩).1 =
      (apiGood ak th && decide (counts (rlKey (th.getD "") now) + 1 ≤ 30)) := by
  constructor
  · rfl
  · unfold authenticate apiGood
    cases hak : jsStrFalsy ak
    · cases hth : jsStrFalsy th
      · by_cases hmk : ak.getD "" = MASTER_API_KEY
        · have hb : bump counts (rlKey (th.getD "") now) (rlKey (th.getD "") now)
              = counts (rlKey (th.getD "") now) + 1 := by simp [bump]
          by_cases hlim : counts (rlKey (th.getD "") now) + 1 > 30
          · simp [hak, hth, hmk, hb, hlim, outcomeOk, show ¬ (counts (rlKey (th.getD "") now) + 1 ≤ 30) by omega]
          · simp [hak, hth, hmk, hb, hlim, outcomeOk, show counts (rlKey (th.getD "") now) + 1 ≤ 30 by omega]
        · simp [hak, hth, hmk, outcomeOk, show ¬ (ak.getD "" == MASTER_API_KEY) = true by
            simp [beq_iff_eq]; exact hmk]
      · simp [hak, hth, outcomeOk]
    · simp [hak, outcomeOk]

def c6BadTok : SignedToken := ⟨false, false, some "t1", none, none⟩

theorem C6_counterexample :
    outcomeStatus (authenticate zeroCounts 0
      ⟨some c6BadTok, some MASTER_API_KEY, some "t1"⟩).1 = 401 ∧
    outcomeOk (authenticate zeroCounts 0
      ⟨some c6BadTok, some MASTER_API_KEY, some "t1"⟩).1 = false ∧
    outcomeOk (authenticate zeroCounts 0 ⟨none, some MASTER_API_KEY, some "t1"⟩).1 = true := by
  decide

theorem C4_witness :
    (outcomeStatus (authenticate zeroCounts 0 ⟨some c4Tok, none, none⟩).1 = 401 ↔
      tokGood c4Tok = false) ∧
    (outcomeTid (authenticate zeroCounts 0 ⟨some c4Tok, none, none⟩).1).isSome = tokGood c4Tok ∧
    (outcomeTid (authenticate zeroCounts 0 ⟨some c4Tok, none, none⟩).1 = none ∨
     outcomeTid (authenticate zeroCounts 0 ⟨some c4Tok, none, none⟩).1 = jsTenant c4Tok) :=
  C4_signed_token_auth zeroCounts 0 none none c4Tok (by decide)


theorem C3_encryption_roundtrip (A : AEAD) (scrypt : String → String → List Nat)
    (mk t t' : String) (pt iv ct' tg' : List Nat)
    (hrt : ∀ k iv0 p, A.rawDec k iv0 (A.enc k iv0 p) = p)
    (htag : ∀ k₁ k₂ iv0 c₁ c₂, A.tagOf k₁ iv0 c₁ = A.tagOf k₂ iv0 c₂ → k₁ = k₂ ∧ c₁ = c₂)
    (hk : scrypt mk t ≠ scrypt mk t')
    (hct : ct' ≠ (encryptDocument A scrypt mk t iv pt).encrypted)
    (htg : tg' ≠ (encryptDocument A scrypt mk t iv pt).authTag) :
    decryptDocument A scrypt mk t (encryptDocument A scrypt mk t iv pt).encrypted
      (encryptDocument A scrypt mk t iv pt).iv (encryptDocument A scrypt mk t iv pt).authTag
      = some pt ∧
    decryptDocument A scrypt mk t ct' (encryptDocument A scrypt mk t iv pt).iv
      (encryptDocument A scrypt mk t iv pt).authTag = none ∧
    decryptDocument A scrypt mk t (encryptDocument A scrypt mk t iv pt).encrypted
      (encryptDocument A scrypt mk t iv pt).iv tg' = none ∧
    decryptDocument A scrypt mk t' (encryptDocument A scrypt mk t iv pt).encrypted
      (encryptDocument A scrypt mk t iv pt).iv (encryptDocument A scrypt mk t iv pt).authTag
      = none := by
  simp only [encryptDocument, decryptDocument, aeadOpen]
  refine ⟨?_, ?_, ?_, ?_⟩
  · simp [hrt]
  · rw [if_neg]
    intro he
    exact hct ((htag _ _ _ _ _ he).2.symm)
  · rw [if_neg]
    intro he
    exact htg he
  · rw [if_neg]
    intro he
    exact hk (htag _ _ _ _ _ he).1

/-- A toy AEAD instance for the witness: identity cipher with a tag that
encodes the key and the ciphertext injectively. -/
def c3AEAD : AEAD :=
  { enc := fun _ _ p => p, rawDec := fun _ _ c => c,
    tagOf := fun k _ c => k.length :: (k ++ c) }

theorem c3Tag_inj : ∀ (k₁ k₂ iv0 c₁ c₂ : List Nat),
    c3AEAD.tagOf k₁ iv0 c₁ = c3AEAD.tagOf k₂ iv0 c₂ → k₁ = k₂ ∧ c₁ = c₂ := by
  intro k₁ k₂ iv0 c₁ c₂ h
  simp only [c3AEAD] at h
  obtain ⟨hl, happ⟩ := List.cons.inj h
  exact List.append_inj happ hl

def c3scrypt : String → String → List Nat := fun _ t => t.data.map Char.toNat

theorem C3_witness :
    decryptDocument c3AEAD c3scrypt "master" "alice"
      (encryptDocument c3AEAD c3scrypt "master" "alice" [7] [1, 2, 3]).encrypted
      (encryptDocument c3AEAD c3scrypt "master" "alice" [7] [1, 2, 3]).iv
      (encryptDocument c3AEAD c3scrypt "master" "alice" [7] [1, 2, 3]).authTag = some [1, 2, 3] ∧
    decryptDocument c3AEAD c3scrypt "master" "alice" [9, 9]
      (encryptDocument c3AEAD c3scrypt "master" "alice" [7] [1, 2, 3]).iv
      (encryptDocument c3AEAD c3scrypt "master" "alice" [7] [1, 2, 3]).authTag = none ∧
    decryptDocument c3AEAD c3scrypt "master" "alice"
      (encryptDocument c3AEAD c3scrypt "master" "alice" [7] [1, 2, 3]).encrypted
      (encryptDocument c3AEAD c3scrypt "master" "alice" [7] [1, 2, 3]).iv [0] = none ∧
    decryptDocument c3AEAD c3scrypt "master" "bob"
      (encryptDocument c3AEAD c3scrypt "master" "alice" [7] [1, 2, 3]).encrypted
      (encryptDocument c3AEAD c3scrypt "master" "alice" [7] [1, 2, 3]).iv
      (encryptDocument c3AEAD c3scrypt "master" "alice" [7] [1, 2, 3]).authTag = none :=
  C3_encryption_roundtrip c3AEAD c3scrypt "master" "alice" "bob" [1, 2, 3] [7] [9, 9] [0]
    (fun _ _ _ => rfl) c3Tag_inj (by decide) (by decide) (by decide)


/-- A fixed environment for evaluating `processData` at concrete inputs. -/
def dummyEnv : JsEnv := { parseDate := fun _ => none, formatBRL := fun _ => "" }

/-- A fixed clock for evaluating `processData` at concrete inputs. -/
def dummyNow : JsDate := ⟨1, 0, 2024, 0, 0⟩

theorem C7_cpf_format (s : String) (h : (stripNonDigits s).data.length < 11) :
    formatCPF (.str "12345678900") = .ok "123.456.789-00" ∧
    (processData dummyEnv dummyNow [("cpf", .str "12345678900")]).map
      (fun ctx => lookupObj ctx "cpf_formatado") = .ok (some (.str "123.456.789-00")) ∧
    formatCPF (.str s) = .ok (if s = "" then "" else stripNonDigits s) := by
  refine ⟨rfl, rfl, ?_⟩
  by_cases hs : s = ""
  · subst hs; rfl
  · have ht : jsTruthy (.str s) = true := by
      simp [jsTruthy, hs]
    have hlt : ¬ 11 ≤ (stripNonDigits s).data.length := by omega
    have hlt2 : ¬ 11 ≤ (stripNonDigits s).length := hlt
    simp [formatCPF, ht, cpfMask, hlt, hlt2, hs]

theorem C7_witness :
    formatCPF (.str "12345678900") = .ok "123.456.789-00" ∧
    (processData dummyEnv dummyNow [("cpf", .str "12345678900")]).map
      (fun ctx => lookupObj ctx "cpf_formatado") = .ok (some (.str "123.456.789-00")) ∧
    formatCPF (.str "123") = .ok (if "123" = "" then "" else stripNonDigits "123") :=
  C7_cpf_format "123" (by decide)

theorem C7_counterexample :
    formatCPF (.str "123") = .ok "123" ∧ formatCPF (.str "123") ≠ .ok "" := by
  constructor
  · rfl
  · intro h
    rw [show formatCPF (.str "123") = .ok "123" from rfl] at h
    simp at h

theorem jsStartsWith_append (p rest : String) : jsStartsWith (p ++ rest) p = true := by
  unfold jsStartsWith
  rw [String.data_append, List.isPrefixOf_iff_prefix]
  exact List.prefix_append _ _

theorem C9_url_validation (u : URLParts) (rest host : String)
    (hacc : isValidTemplateUrl (some u) = true) :
    u.protocol = "https:" ∧
    (u.hostname == "localhost") = false ∧
    (u.hostname == "127.0.0.1") = false ∧
    jsStartsWith u.hostname "192.168." = false ∧
    jsStartsWith u.hostname "10." = false ∧
    isValidTemplateUrl (some ⟨"https:", "10." ++ rest⟩) = false ∧
    isValidTemplateUrl (some ⟨"https:", "192.168." ++ rest⟩) = false ∧
    isValidTemplateUrl (some ⟨"http:", host⟩) = false ∧
    isValidTemplateUrl none = false := by
  simp only [isValidTemplateUrl] at hacc
  by_cases h1 : (u.protocol == "https:") = false
  · rw [if_pos h1] at hacc; exact (Bool.false_ne_true hacc).elim
  · rw [if_neg h1] at hacc
    by_cases h2 : (u.hostname == "localhost" || u.hostname == "127.0.0.1" ||
        jsStartsWith u.hostname "192.168." || jsStartsWith u.hostname "10.") = true
    · rw [if_pos h2] at hacc; exact (Bool.false_ne_true hacc).elim
    · simp only [Bool.not_eq_true, Bool.or_eq_false_iff] at h2
      obtain ⟨⟨⟨hl, hl2⟩, h192⟩, h10⟩ := h2
      have hp : u.protocol = "https:" := by
        have h1' : (u.protocol == "https:") = true := by
          cases hb : (u.protocol == "https:")
          · exact absurd hb h1
          · rfl
        exact beq_iff_eq.mp h1'

      have hhttp : ("http:" == "https:") = false := by decide
      refine ⟨hp, hl, hl2, h192, h10, ?_, ?_, ?_, rfl⟩
      · simp [isValidTemplateUrl, jsStartsWith_append]
      · simp [isValidTemplateUrl, jsStartsWith_append]
      · simp [isValidTemplateUrl, hhttp]


theorem C9_witness :
    URLParts.protocol ⟨"https:", "example.com"⟩ = "https:" ∧
    (URLParts.hostname ⟨"https:", "example.com"⟩ == "localhost") = false ∧
    (URLParts.hostname ⟨"https:", "example.com"⟩ == "127.0.0.1") = false ∧
    jsStartsWith (URLParts.hostname ⟨"https:", "example.com"⟩) "192.168." = false ∧
    jsStartsWith (URLParts.hostname ⟨"https:", "example.com"⟩) "10." = false ∧
    isValidTemplateUrl (some ⟨"https:", "10." ++ "0.0.5"⟩) = false ∧
    isValidTemplateUrl (some ⟨"https:", "192.168." ++ "0.0.5"⟩) = false ∧
    isValidTemplateUrl (some ⟨"http:", "h"⟩) = false ∧
    isValidTemplateUrl none = false :=
  C9_url_validation ⟨"https:", "example.com"⟩ "0.0.5" "h" (by decide)

theorem C9_counterexample :
    isValidTemplateUrl (some ⟨"https:", "172.16.0.1"⟩) = true ∧
    in172_16_12 "172.16.0.1" = true := by decide

theorem C8_counterexample :
    (processData dummyEnv dummyNow [("cpf", .num 1)]).isOk = false ∧
    processData dummyEnv dummyNow [("cpf", .num 1)] = .error .typeError := ⟨rfl, rfl⟩


/-- Values a cpf/cnpj-keyed field may hold without `formatCPF`/`formatCNPJ`
throwing: strings, or anything falsy. -/
def strOrFalsy : JSVal → Bool
  | .str _ => true
  | v => !jsTruthy v

/-- Keys routed to `formatCPF` or `formatCNPJ`. -/
def cpfKey (k : String) : Bool := jsIncludes k "cpf" || jsIncludes k "cnpj"

/-- Invariant: every cpf/cnpj-keyed field holds a string-or-falsy value. -/
def cpfSafe (ctx : Obj) : Prop :=
  ∀ k, cpfKey k = true → strOrFalsy ((lookupObj ctx k).getD .undef) = true

theorem formatCPF_ok (v : JSVal) (h : strOrFalsy v = true) :
    ∃ fs, formatCPF v = .ok fs := by
  unfold formatCPF
  by_cases hc : jsTruthy v = false
  · exact ⟨"", by rw [if_pos hc]⟩
  · rw [if_neg hc]
    cases v <;> simp_all [strOrFalsy, jsTruthy]

theorem formatCNPJ_ok (v : JSVal) (h : strOrFalsy v = true) :
    ∃ fs, formatCNPJ v = .ok fs := by
  unfold formatCNPJ
  by_cases hc : jsTruthy v = false
  · exact ⟨"", by rw [if_pos hc]⟩
  · rw [if_neg hc]
    cases v <;> simp_all [strOrFalsy, jsTruthy]

theorem cpfSafe_setKey_str (ctx : Obj) (k s : String) (h : cpfSafe ctx) :
    cpfSafe (setKey ctx k (.str s)) := by
  intro q hq
  rw [lookupObj_setKey]
  by_cases hqk : q = k
  · simp [hqk, strOrFalsy]
  · simp only [if_neg hqk]
    exact h q hq

theorem cpfSafe_setKey_notcpf (ctx : Obj) (k : String) (v : JSVal)
    (hk : cpfKey k = false) (h : cpfSafe ctx) : cpfSafe (setKey ctx k v) := by
  intro q hq
  rw [lookupObj_setKey]
  by_cases hqk : q = k
  · subst hqk; rw [hq] at hk; cases hk
  · simp only [if_neg hqk]
    exact h q hq

theorem arrNormStep_safe (ctx : Obj) (key : String) (h : cpfSafe ctx) :
    cpfSafe (arrNormStep ctx key) := by
  unfold arrNormStep
  rcases hm : (lookupObj ctx key).getD .undef with s | n | b | _ | _ | items | o | r <;>
    try exact h
  have hk : cpfKey key = false := by
    by_contra hkk
    have hkt : cpfKey key = true := by revert hkk; cases cpfKey key <;> simp
    have := h key hkt
    rw [hm] at this
    simp [strOrFalsy, jsTruthy] at this
  exact cpfSafe_setKey_notcpf ctx key _ hk h

theorem currencyStep_safe (env : JsEnv) (ctx : Obj) (key : String) (v : JSVal)
    (h : cpfSafe ctx) : cpfSafe (currencyStep env ctx key v) := by
  unfold currencyStep
  split
  · split
    · exact cpfSafe_setKey_str _ _ _ h
    · exact h
  · exact h

theorem cpfStep_ok (ctx : Obj) (key : String) (v : JSVal) (h : cpfSafe ctx)
    (hv : cpfKey key = true → strOrFalsy v = true) :
    ∃ ctx', cpfStep ctx key v = .ok ctx' ∧ cpfSafe ctx' := by
  unfold cpfStep
  by_cases hc : jsIncludes key "cpf" = true
  · have hsv : strOrFalsy v = true := hv (by simp [cpfKey, hc])
    obtain ⟨fs, hfs⟩ := formatCPF_ok v hsv
    rw [if_pos hc, hfs]
    exact ⟨_, rfl, cpfSafe_setKey_str _ _ _ h⟩
  · rw [if_neg hc]
    exact ⟨ctx, rfl, h⟩

theorem cnpjStep_ok (ctx : Obj) (key : String) (v : JSVal) (h : cpfSafe ctx)
    (hv : cpfKey key = true → strOrFalsy v = true) :
    ∃ ctx', cnpjStep ctx key v = .ok ctx' ∧ cpfSafe ctx' := by
  unfold cnpjStep
  by_cases hc : jsIncludes key "cnpj" = true
  · have hsv : strOrFalsy v = true := hv (by simp [cpfKey, hc])
    obtain ⟨fs, hfs⟩ := formatCNPJ_ok v hsv
    rw [if_pos hc, hfs]
    exact ⟨_, rfl, cpfSafe_setKey_str _ _ _ h⟩
  · rw [if_neg hc]
    exact ⟨ctx, rfl, h⟩

theorem dateStep_safe (env : JsEnv) (ctx : Obj) (key : String) (v : JSVal)
    (h : cpfSafe ctx) : cpfSafe (dateStep env ctx key v) := by
  unfold dateStep
  split
  · split
    · split
      · exact cpfSafe_setKey_str _ _ _ (cpfSafe_setKey_str _ _ _ h)
      · exact h
    · exact h
  · exact h

theorem processKey_ok (env : JsEnv) (ctx : Obj) (key : String) (h : cpfSafe ctx) :
    ∃ ctx', processKey env ctx key = .ok ctx' ∧ cpfSafe ctx' := by
  unfold processKey
  have h1 : cpfSafe (arrNormStep ctx key) := arrNormStep_safe ctx key h
  have hv : cpfKey key = true →
      strOrFalsy ((lookupObj (arrNormStep ctx key) key).getD .undef) = true :=
    fun hk => h1 key hk
  have h2 : cpfSafe (currencyStep env (arrNormStep ctx key) key
      ((lookupObj (arrNormStep ctx key) key).getD .undef)) :=
    currencyStep_safe _ _ _ _ h1
  obtain ⟨ctx3, hctx3, h3⟩ := cpfStep_ok _ key _ h2 hv
  obtain ⟨ctx4, hctx4, h4⟩ := cnpjStep_ok ctx3 key _ h3 hv
  simp only [hctx3, hctx4]
  exact ⟨_, rfl, dateStep_safe _ _ _ _ h4⟩

theorem foldKeys_ok (env : JsEnv) (keys : List String) :
    ∀ ctx : Obj, cpfSafe ctx →
    ∃ ctx', keys.foldlM (processKey env) ctx = .ok ctx' ∧ cpfSafe ctx' := by
  induction keys with
  | nil => intro ctx h; exact ⟨ctx, rfl, h⟩
  | cons k rest ih =>
    intro ctx h
    obtain ⟨ctx1, hctx1, h1⟩ := processKey_ok env ctx k h
    obtain ⟨ctx', hctx', h'⟩ := ih ctx1 h1
    refine ⟨ctx', ?_, h'⟩
    simp only [List.foldlM, hctx1]
    exact hctx'

theorem cpfSafe_of_input (data : Obj)
    (H : ∀ p ∈ data, cpfKey p.1 = true → strOrFalsy p.2 = true) : cpfSafe data := by
  intro k hk
  cases hf : data.find? (fun p => p.1 == k) with
  | none => simp [lookupObj, hf, strOrFalsy, jsTruthy]
  | some p =>
    have hmem := List.mem_of_find?_eq_some hf
    have hpk : p.1 = k := by
      have := List.find?_some hf
      exact beq_iff_eq.mp this
    simp [lookupObj, hf]
    exact H p hmem (hpk ▸ hk)

theorem C8_process_total (env : JsEnv) (now : JsDate) (data : Obj)
    (H : ∀ p ∈ data, cpfKey p.1 = true → strOrFalsy p.2 = true) :
    (processData env now data).isOk = true := by
  unfold processData
  have hsafe : cpfSafe (setKey (setKey data "hoje" (.str (formatDate now)))
      "agora" (.str (formatDateTime now))) :=
    cpfSafe_setKey_str _ _ _ (cpfSafe_setKey_str _ _ _ (cpfSafe_of_input data H))
  obtain ⟨ctx', hctx', -⟩ := foldKeys_ok env
    ((setKey (setKey data "hoje" (.str (formatDate now))) "agora"
      (.str (formatDateTime now))).map (·.1)) _ hsafe
  simp only [hctx']
  rfl

theorem C8_witness :
    (processData dummyEnv dummyNow
      [("nome", .str "Ana"), ("cpf", .str "12345678900"), ("valor", .num 5000),
       ("itens", .arr [.str "a", .obj [("x", .num 1)]]), ("data_inicio", .str "2024-03-05"),
       ("cnpj", .null), ("obs", .obj [("rg", .num 7)])]).isOk = true :=
  C8_process_total dummyEnv dummyNow _ (by decide)

/-- Read field `f` of heap cell `i`. -/
def lookupHeapField (h : Heap) (i : Nat) (f : String) : Option JSVal :=
  (h[i]?).bind (fun o => lookupObj o f)

theorem redactNested_props (h : Heap) (s1 : Obj) (d : Nat) (field : String)
    (hdata : lookupObj s1 "data" = some (.ref d)) :
    (redactNested h s1 field).2 = s1 ∧
    (∀ c, c ≠ d → (redactNested h s1 field).1[c]? = h[c]?) ∧
    (∀ f, f ≠ field → lookupHeapField (redactNested h s1 field).1 d f = lookupHeapField h d f) ∧
    (jsTruthyOpt (lookupHeapField h d field) = true →
      lookupHeapField (redactNested h s1 field).1 d field = some REDACTED) := by
  have he : redactNested h s1 field =
      (match h[d]? with
       | some dobj =>
         if jsTruthyOpt (lookupObj dobj field) then (h.set d (setKey dobj field REDACTED), s1)
         else (h, s1)
       | none => (h, s1)) := by
    unfold redactNested
    rw [hdata]
  rw [he]
  cases hd : h[d]? with
  | none =>
    refine ⟨rfl, fun c _ => rfl, fun f _ => rfl, ?_⟩
    intro htr
    unfold lookupHeapField at htr
    rw [hd] at htr
    simp [jsTruthyOpt, jsTruthy] at htr
  | some dobj =>
    have hdlen : d < h.length := (List.getElem?_eq_some.mp hd).1
    have he2 : (match some dobj with
        | some dobj =>
          if jsTruthyOpt (lookupObj dobj field) then (h.set d (setKey dobj field REDACTED), s1)
          else (h, s1)
        | none => (h, s1)) =
        (if jsTruthyOpt (lookupObj dobj field) then (h.set d (setKey dobj field REDACTED), s1)
         else (h, s1)) := rfl
    rw [he2]
    by_cases htd : jsTruthyOpt (lookupObj dobj field) = true
    · rw [if_pos htd]
      refine ⟨rfl, ?_, ?_, ?_⟩
      · intro c hc
        exact List.getElem?_set_ne (fun hh => hc hh.symm)
      · intro f hf
        unfold lookupHeapField
        rw [List.getElem?_set_eq_of_lt _ hdlen, hd]
        simp only [Option.some_bind]
        rw [lookupObj_setKey, if_neg hf]
      · intro _
        unfold lookupHeapField
        rw [List.getElem?_set_eq_of_lt _ hdlen]
        simp only [Option.some_bind]
        rw [lookupObj_setKey, if_pos rfl]
    · rw [if_neg htd]
      refine ⟨rfl, fun c _ => rfl, fun f _ => rfl, ?_⟩
      intro htr
      unfold lookupHeapField at htr
      rw [hd] at htr
      simp only [Option.some_bind] at htr
      exact absurd htr htd

theorem sanitizeStep_props (h : Heap) (s : Obj) (d : Nat) (field : String)
    (hfd : field ≠ "data") (hdata : lookupObj s "data" = some (.ref d)) :
    lookupObj (sanitizeStep (h, s) field).2 "data" = some (.ref d) ∧
    (∀ c, c ≠ d → (sanitizeStep (h, s) field).1[c]? = h[c]?) ∧
    (∀ f, f ≠ field → lookupHeapField (sanitizeStep (h, s) field).1 d f = lookupHeapField h d f) ∧
    (∀ f, f ≠ field → lookupObj (sanitizeStep (h, s) field).2 f = lookupObj s f) ∧
    (jsTruthyOpt (lookupHeapField h d field) = true →
      lookupHeapField (sanitizeStep (h, s) field).1 d field = some REDACTED) ∧
    (jsTruthyOpt (lookupObj s field) = true →
      lookupObj (sanitizeStep (h, s) field).2 field = some REDACTED) := by
  have hs1data : lookupObj (if jsTruthyOpt (lookupObj s field) then
      setKey s field REDACTED else s) "data" = some (.ref d) := by
    split
    · rw [lookupObj_setKey, if_neg (fun hh : "data" = field => hfd hh.symm)]
      exact hdata
    · exact hdata
  have hstep : sanitizeStep (h, s) field = redactNested h
      (if jsTruthyOpt (lookupObj s field) then setKey s field REDACTED else s) field := rfl
  obtain ⟨hcopy, hframe, hdfield, hred⟩ := redactNested_props h
    (if jsTruthyOpt (lookupObj s field) then setKey s field REDACTED else s) d field hs1data
  rw [hstep]
  rw [hcopy]
  refine ⟨hs1data, hframe, hdfield, ?_, hred, ?_⟩
  · intro f hf
    split
    · rw [lookupObj_setKey, if_neg hf]
    · rfl
  · intro htr
    rw [if_pos htr, lookupObj_setKey, if_pos rfl]

end JusWay
namespace JusWay

theorem sanitizeFold_props (d : Nat) : ∀ (fs : List String) (h : Heap) (s : Obj),
    "data" ∉ fs → fs.Nodup → lookupObj s "data" = some (.ref d) →
    lookupObj (fs.foldl sanitizeStep (h, s)).2 "data" = some (.ref d) ∧
    (∀ c, c ≠ d → (fs.foldl sanitizeStep (h, s)).1[c]? = h[c]?) ∧
    (∀ f, f ∉ fs → lookupHeapField (fs.foldl sanitizeStep (h, s)).1 d f = lookupHeapField h d f) ∧
    (∀ f, f ∉ fs → lookupObj (fs.foldl sanitizeStep (h, s)).2 f = lookupObj s f) ∧
    (∀ f ∈ fs, jsTruthyOpt (lookupHeapField h d f) = true →
      lookupHeapField (fs.foldl sanitizeStep (h, s)).1 d f = some REDACTED) ∧
    (∀ f ∈ fs, jsTruthyOpt (lookupObj s f) = true →
      lookupObj (fs.foldl sanitizeStep (h, s)).2 f = some REDACTED) := by
  intro fs
  induction fs with
  | nil =>
    intro h s _ _ hdata
    exact ⟨hdata, fun c _ => rfl, fun f _ => rfl, fun f _ => rfl,
      fun f hf => absurd hf (List.not_mem_nil f), fun f hf => absurd hf (List.not_mem_nil f)⟩
  | cons g rest ih =>
    intro h s hdmem hnodup hdata
    have hgd : g ≠ "data" := fun hh => hdmem (hh ▸ List.mem_cons_self g rest)
    have hdrest : "data" ∉ rest := fun hh => hdmem (List.mem_cons_of_mem g hh)
    have hnd := List.nodup_cons.mp hnodup
    obtain ⟨hgrest, hndrest⟩ := hnd
    obtain ⟨s1data, s1heap, s1dfield, s1frame, s1redheap, s1redtop⟩ :=
      sanitizeStep_props h s d g hgd hdata
    have hfold : (g :: rest).foldl sanitizeStep (h, s)
        = rest.foldl sanitizeStep (sanitizeStep (h, s) g) := rfl
    obtain ⟨ih1, ih2, ih3, ih4, ih5, ih6⟩ :=
      ih (sanitizeStep (h, s) g).1 (sanitizeStep (h, s) g).2 hdrest hndrest s1data
    rw [hfold]
    refine ⟨ih1, ?_, ?_, ?_, ?_, ?_⟩
    · intro c hc
      rw [ih2 c hc, s1heap c hc]
    · intro f hf
      have hfg : f ≠ g := fun hh => hf (hh ▸ List.mem_cons_self g rest)
      have hfr : f ∉ rest := fun hh => hf (List.mem_cons_of_mem g hh)
      rw [ih3 f hfr, s1dfield f hfg]
    · intro f hf
      have hfg : f ≠ g := fun hh => hf (hh ▸ List.mem_cons_self g rest)
      have hfr : f ∉ rest := fun hh => hf (List.mem_cons_of_mem g hh)
      rw [ih4 f hfr, s1frame f hfg]
    · intro f hf htr
      rcases List.mem_cons.mp hf with hfg | hfr
      · subst hfg
        rw [ih3 f hgrest, s1redheap htr]
      · have hfg : f ≠ g := fun hh => hgrest (hh ▸ hfr)
        have htr1 : jsTruthyOpt (lookupHeapField (sanitizeStep (h, s) g).1 d f) = true := by
          rw [s1dfield f hfg]; exact htr
        exact ih5 f hfr htr1
    · intro f hf htr
      rcases List.mem_cons.mp hf with hfg | hfr
      · subst hfg
        rw [ih4 f hgrest, s1redtop htr]
      · have hfg : f ≠ g := fun hh => hgrest (hh ▸ hfr)
        have htr1 : jsTruthyOpt (lookupObj (sanitizeStep (h, s) g).2 f) = true := by
          rw [s1frame f hfg]; exact htr
        exact ih6 f hfr htr1


theorem C10_sanitize_shallow_copy (heap : Heap) (b d : Nat) (body : Obj) (f g : String)
    (hbody : heap[b]? = some body)
    (hdata : lookupObj body "data" = some (.ref d))
    (hbd : d ≠ b)
    (hf : f ∈ sensitiveFields)
    (hft : jsTruthyOpt (lookupHeapField heap d f) = true)
    (hg : g ∈ sensitiveFields)
    (hgt : jsTruthyOpt (lookupObj body g) = true) :
    lookupHeapField (sanitizeData heap b).1 d f = some REDACTED ∧
    (sanitizeData heap b).1[b]? = some body ∧
    lookupObj ((sanitizeData heap b).2.getD []) g = some REDACTED := by
  have he1 : (sanitizeData heap b).1 = (sensitiveFields.foldl sanitizeStep (heap, body)).1 := by
    unfold sanitizeData
    rw [hbody]
  have he2 : (sanitizeData heap b).2 = some (sensitiveFields.foldl sanitizeStep (heap, body)).2 := by
    unfold sanitizeData
    rw [hbody]
  obtain ⟨h1x, h2, h3x, h4x, h5, h6⟩ := sanitizeFold_props d sensitiveFields heap body
    (by decide) (by decide) hdata
  rw [lookupHeapField, he1, he2]
  refine ⟨h5 f hf hft, ?_, ?_⟩
  · rw [h2 b (fun hh => hbd hh.symm), hbody]
  · simp only [Option.getD_some]
    exact h6 g hg hgt

/-- A concrete request body for the witness: cell 0 is the body, whose `data`
field points at cell 1. -/
def c10Heap : Heap :=
  [[("cpf", .str "123"), ("data", .ref 1), ("x", .str "keep")],
   [("cpf", .str "999"), ("nome", .str "Ana")]]

theorem C10_witness :
    lookupHeapField (sanitizeData c10Heap 0).1 1 "cpf" = some REDACTED ∧
    (sanitizeData c10Heap 0).1[0]? =
      some [("cpf", .str "123"), ("data", .ref 1), ("x", .str "keep")] ∧
    lookupObj ((sanitizeData c10Heap 0).2.getD []) "cpf" = some REDACTED :=
  C10_sanitize_shallow_copy c10Heap 0 1
    [("cpf", .str "123"), ("data", .ref 1), ("x", .str "keep")] "cpf" "cpf"
    rfl rfl (by decide) (by decide) rfl (by decide) rfl

end JusWay
